import Mathlib

attribute [local semireducible] Rat.add Rat.mul Rat.sub Rat.inv Rat.ofScientific

/-!
Verification of the core of the `fractal-generator` repository.

The definitions below are a shallow embedding of the JavaScript sources:

* `fractals.js` — the escape-time iterator `fractal`, the smoothing
  function `normalize`, the exponentiation helper `powi` (from
  `complexlite.js`), and the HSV→RGB conversion `hsv2rgb`;
* `complexlite.js` — the complex number primitive (`sqr`, `polar`,
  `cart`, `pow`);
* `colorutils.js` (the color library; the repository carries two copies
  of it with identical `getColormap`) — `interpolate`, `hsv2rgb` (the
  RGBA variant, embedded as `hsv2rgbLib`) and `getColormap`.

JavaScript numbers are modelled as elements of a linear ordered field
`F` (instantiated with `ℚ` for concrete evaluation and with `ℝ` when the
transcendental functions matter).  The transcendental functions used by
the iterator's polar branch (`Math.sqrt`, `Math.cos`, `Math.sin`,
`Math.atan2`) are passed as an explicit record `TrigOps`, instantiated
over `ℝ` with the corresponding Mathlib functions.  A value that may be
JavaScript `NaN`/`Infinity` (a non-finite double) is modelled as
`Option F`, with `none` standing for the non-finite case.  A JavaScript
exception is modelled with `Except`.
-/

namespace FG

/-- Mode constant from `fractals.js`: `const MANDELBROT = 0`. -/
def MANDELBROT : ℕ := 0

/-- Mode constant from `fractals.js`: `const JULIA = 1`. -/
def JULIA : ℕ := 1

/-- Variant constant from `fractals.js`: `const STANDARD = 0`. -/
def STANDARD : ℕ := 0

/-- Variant constant from `fractals.js`: `const BURNING_SHIP = 1`. -/
def BURNING_SHIP : ℕ := 1

/-- Variant constant from `fractals.js`: `const TRICORN = 2`. -/
def TRICORN : ℕ := 2

/-- A complex value `{re, im}` as built by `Complex(re, im)` in
`complexlite.js`. -/
structure ComplexF (F : Type) where
  re : F
  im : F
  deriving DecidableEq, Repr

/-- The escape scalars `{i, za}` returned by `fractal` in `fractals.js`:
`i` is the iteration count at bailout and `za` the squared magnitude of
`z` at the bailout test. -/
structure Scalars (F : Type) where
  i : ℕ
  za : F
  deriving DecidableEq, Repr

/-- The transcendental `Math` functions used by the polar branch of the
iterator and by `complexlite.js`.  They are parameters of the embedding;
over `ℝ` they are instantiated with the Mathlib functions
(`realTrig`). -/
structure TrigOps (F : Type) where
  sqrtF : F → F
  cosF : F → F
  sinF : F → F
  atan2F : F → F → F

/-- `Math.atan2 y x` modelled over `ℝ` as the argument of the complex
number `x + y·i` (range `(-π, π]`, `atan2 0 0 = 0`, exactly as in
JavaScript for inputs expressible as reals). -/
noncomputable def atan2R (y x : ℝ) : ℝ := Complex.arg ⟨x, y⟩

/-- The `Math` functions over `ℝ`. -/
noncomputable def realTrig : TrigOps ℝ :=
  ⟨Real.sqrt, Real.cos, Real.sin, atan2R⟩

/-- Trivial trig operations (every function constantly `0`), usable over
`ℚ`: the exponent-2 path of the iterator never calls them. -/
def trigZero (F : Type) [Zero F] : TrigOps F :=
  ⟨fun _ => 0, fun _ => 0, fun _ => 0, fun _ _ => 0⟩

/-- Inner loop of `powi` from `complexlite.js` ("halving and squaring"):
`while (n) { if (n & 1) res *= base; n >>= 1; base *= base; }`. -/
def powiAux {F : Type} [Field F] (res base : F) : ℕ → F
  | 0 => res
  | n + 1 =>
    powiAux (if (n + 1) % 2 = 1 then res * base else res) (base * base) ((n + 1) / 2)
  decreasing_by exact Nat.div_lt_self (Nat.succ_pos n) one_lt_two

/-- `powi(base, n)` from `complexlite.js`: optimised integer-exponent
power function. -/
def powi {F : Type} [Field F] (base : F) (n : ℕ) : F := powiAux 1 base n

/-- The halving-and-squaring loop computes `res * base ^ n`. -/
theorem powiAux_eq {F : Type} [Field F] :
    ∀ (n : ℕ) (res base : F), powiAux res base n = res * base ^ n := by
  intro n
  induction n using Nat.strong_induction_on with
  | _ n ih =>
    match n with
    | 0 => intro res base; simp [powiAux]
    | n + 1 =>
      intro res base
      rw [powiAux]
      rw [ih ((n + 1) / 2) (Nat.div_lt_self (Nat.succ_pos n) one_lt_two)]
      have hsq : ∀ k : ℕ, (base * base) ^ k = base ^ (2 * k) := by
        intro k; rw [two_mul, pow_add, mul_pow]
      rcases Nat.even_or_odd (n + 1) with he | ho
      · have h2 : (n + 1) % 2 = 0 := Nat.even_iff.mp he
        have hdiv : n + 1 = 2 * ((n + 1) / 2) := by omega
        rw [if_neg (by omega), hsq]
        conv_rhs => rw [hdiv]
      · have h2 : (n + 1) % 2 = 1 := Nat.odd_iff.mp ho
        have hdiv : n + 1 = 2 * ((n + 1) / 2) + 1 := by omega
        rw [if_pos h2, hsq]
        conv_rhs => rw [hdiv]
        rw [pow_succ]
        ring

/-- `powi` agrees with the mathematical power function. -/
theorem powi_eq_pow {F : Type} [Field F] (base : F) (n : ℕ) :
    powi base n = base ^ n := by
  rw [powi, powiAux_eq, one_mul]

/-- The `n == 2` branch of the update step in `fractal`
(`fractals.js`): `tre = zre2 - zim2 + cre; zim = 2*zre*zim + cim;
zre = tre` — the direct algebraic `z² + c`. -/
def algStep {F : Type} [Field F] (zre zim cre cim : F) : F × F :=
  (zre * zre - zim * zim + cre, 2 * zre * zim + cim)

/-- The `n > 2` branch of the update step in `fractal` (`fractals.js`):
`r = powi(Math.sqrt(zre2 + zim2), n); θ = n * Math.atan2(zim, zre);
zre = r*Math.cos(θ) + cre; zim = r*Math.sin(θ) + cim` — polar-form
`zⁿ + c`. -/
def polarStep {F : Type} [Field F] (tr : TrigOps F) (n : ℕ)
    (zre zim cre cim : F) : F × F :=
  let r := powi (tr.sqrtF (zre * zre + zim * zim)) n
  let θ := (n : F) * tr.atan2F zim zre
  (r * tr.cosF θ + cre, r * tr.sinF θ + cim)

/-- Outcome of one pass through the body of the iteration loop of
`fractal`: escape by bailout (`break` with the current `i`), periodicity
detection (`i = maxiter; break`), or continuation with the updated loop
variables. -/
inductive BodyOut (F : Type) where
  | escaped : F → BodyOut F
  | periodic : F → BodyOut F
  | next : F → F → F → F → ℕ → F → BodyOut F
  deriving DecidableEq

/-- One pass through the loop body of `fractal` (`fractals.js`), acting
on the loop variables `zre, zim, lastre, lastim, per`: variant
pre-transform, bailout test `za > radius`, update `z = zⁿ + c`, and the
periodicity check with its every-21st-iteration sampling of
`(lastre, lastim)`.  In the `next` case the six fields are the new
`zre, zim, lastre, lastim, per` and the tested `za`. -/
def fractalBody {F : Type} [LinearOrderedField F] (tr : TrigOps F)
    (cre cim radius : F) (n variant : ℕ)
    (zre zim lastre lastim : F) (per : ℕ) : BodyOut F :=
  let zre := if variant = BURNING_SHIP then |zre| else zre
  let zim :=
    if variant = BURNING_SHIP then -|zim|
    else if variant = TRICORN then -zim else zim
  let zre2 := zre * zre
  let zim2 := zim * zim
  let za := zre2 + zim2
  if za > radius then .escaped za
  else
    let z' := if n = 2 then algStep zre zim cre cim
              else polarStep tr n zre zim cre cim
    if z'.1 = lastre ∧ z'.2 = lastim then .periodic za
    else if per + 1 > 20 then .next z'.1 z'.2 z'.1 z'.2 0 za
    else .next z'.1 z'.2 lastre lastim (per + 1) za

/-- The iteration loop `for (i = 0; i < maxiter; i += 1) { ... }` of
`fractal`, with explicit loop variables.  `fuel` is the number of
iterations left (`maxiter - i`); when it reaches `0` the loop condition
`i < maxiter` fails and `{i, za}` is returned. -/
def fractalLoop {F : Type} [LinearOrderedField F] (tr : TrigOps F)
    (cre cim radius : F) (n maxiter variant : ℕ) :
    ℕ → ℕ → F → F → F → F → ℕ → F → Scalars F
  | 0, i, _, _, _, _, _, za => ⟨i, za⟩
  | fuel + 1, i, zre, zim, lastre, lastim, per, _za =>
    match fractalBody tr cre cim radius n variant zre zim lastre lastim per with
    | .escaped za' => ⟨i, za'⟩
    | .periodic za' => ⟨maxiter, za'⟩
    | .next zre' zim' lastre' lastim' per' za' =>
      fractalLoop tr cre cim radius n maxiter variant
        fuel (i + 1) zre' zim' lastre' lastim' per' za'

/-- `fractal(c, cj, n, maxiter, radius, mode, variant)` from
`fractals.js`: Julia mode takes `c` from the Julia constant `cj` and
starts `z` at the plane point; Mandelbrot mode takes `c` from the plane
point and starts `z` at `0`.  `lastre = lastim = 0`, `per = 0`.  The
accumulator for `za` starts at `0`, standing for the JavaScript
`undefined` that is only returned when `maxiter = 0`. -/
def fractal {F : Type} [LinearOrderedField F] (tr : TrigOps F)
    (c cj : ComplexF F) (n maxiter : ℕ) (radius : F)
    (mode variant : ℕ) : Scalars F :=
  if mode = JULIA then
    fractalLoop tr cj.re cj.im radius n maxiter variant
      maxiter 0 c.re c.im 0 0 0 0
  else
    fractalLoop tr c.re c.im radius n maxiter variant
      maxiter 0 0 0 0 0 0 0

/-- Iterate the loop body `k` times, keeping the full tuple of loop
variables `(zre, zim, lastre, lastim, per)`; `none` as soon as some pass
breaks out of the loop.  Used to observe the periodicity bookkeeping of
`fractal`. -/
def bodyIter {F : Type} [LinearOrderedField F] (tr : TrigOps F)
    (cre cim radius : F) (n variant : ℕ) :
    ℕ → F × F × F × F × ℕ → Option (F × F × F × F × ℕ)
  | 0, s => some s
  | k + 1, (zre, zim, lastre, lastim, per) =>
    match fractalBody tr cre cim radius n variant zre zim lastre lastim per with
    | .escaped _ => none
    | .periodic _ => none
    | .next zre' zim' lastre' lastim' per' _ =>
      bodyIter tr cre cim radius n variant k (zre', zim', lastre', lastim', per')

/-- Heap-passing transcription of `fractal`: the arguments `c` and `cj`
live in a store `h` of mutable `{re, im}` objects addressed by pointers.
The source body reads `c.re`, `c.im`, `cj.re`, `cj.im` once at entry
(into the locals `cre`, `cim`, `zre`, `zim`) and contains no assignment
to any field of either object, so the transcription returns the store
unchanged alongside the result computed from the values read. -/
def fractalHeap {F : Type} {P : Type} [LinearOrderedField F]
    (tr : TrigOps F) (h : P → ComplexF F) (pc pcj : P)
    (n maxiter : ℕ) (radius : F) (mode variant : ℕ) :
    Scalars F × (P → ComplexF F) :=
  (fractal tr (h pc) (h pcj) n maxiter radius mode variant, h)

/-- `normalize(scalars, radius, exponent)` from `fractals.js`:
`lzn = Math.log(scalars.za) * 2;
nu = Math.log(lzn / Math.log(radius)) / Math.log(exponent);
return scalars.i + 1 - nu`. -/
noncomputable def normalize (scalars : Scalars ℝ) (radius exponent : ℝ) : ℝ :=
  let lzn := Real.log scalars.za * 2
  let nu := Real.log (lzn / Real.log radius) / Real.log exponent
  (scalars.i : ℝ) + 1 - nu

/-- `Complex.prototype.sqr` from `complexlite.js`:
`re2 = re*re - im*im; im2 = 2*im*re`. -/
def csqr {F : Type} [Field F] (z : ComplexF F) : ComplexF F :=
  ⟨z.re * z.re - z.im * z.im, 2 * z.im * z.re⟩

/-- `Complex.prototype.abs2` from `complexlite.js`. -/
def cabs2 {F : Type} [Field F] (z : ComplexF F) : F :=
  z.re * z.re + z.im * z.im

/-- `Complex.prototype.abs` from `complexlite.js`:
`Math.sqrt(this.abs2())`. -/
noncomputable def cabs (z : ComplexF ℝ) : ℝ := Real.sqrt (cabs2 z)

/-- `Complex.prototype.polar` from `complexlite.js`: magnitude and angle
`(r, θ)` with `θ = Math.atan2(im, re)`. -/
noncomputable def cpolar (z : ComplexF ℝ) : ℝ × ℝ := (cabs z, atan2R z.im z.re)

/-- `cart(r, θ)` from `complexlite.js`: polar to cartesian. -/
noncomputable def cart (r θ : ℝ) : ComplexF ℝ := ⟨r * Real.cos θ, r * Real.sin θ⟩

/-- `Complex.prototype.pow` from `complexlite.js`: special cases for
`n = 0, 1, 2`, polar form `cart(Math.pow(pol.r, n), n * pol.θ)`
otherwise. -/
noncomputable def cpow (z : ComplexF ℝ) (n : ℕ) : ComplexF ℝ :=
  if n = 0 then ⟨1, 0⟩
  else if n = 1 then z
  else if n = 2 then csqr z
  else cart ((cpolar z).1 ^ n) ((n : ℝ) * (cpolar z).2)

/-- JavaScript truncation toward zero (`parseInt` on a number rendered
as a plain decimal, and the integer part used by the `%` operator). -/
def jsTrunc {F : Type} [LinearOrderedField F] [FloorRing F] (x : F) : ℤ :=
  if x < 0 then -⌊-x⌋ else ⌊x⌋

/-- `parseInt` as used in `hsv2rgb` (its numeric argument renders as a
plain decimal there, so it truncates toward zero). -/
def jsParseInt {F : Type} [LinearOrderedField F] [FloorRing F] (x : F) : ℤ :=
  jsTrunc x

/-- JavaScript `x % 1`: the remainder `x - trunc(x)` (negative for
negative non-integer `x`). -/
def jsRemOne {F : Type} [LinearOrderedField F] [FloorRing F] (x : F) : F :=
  x - (jsTrunc x : F)

/-- An `{r, g, b}` color as returned by `hsv2rgb` in `fractals.js`
(all three components are `parseInt` results). -/
structure RGB where
  r : ℤ
  g : ℤ
  b : ℤ
  deriving DecidableEq, Repr

/-- An `{r, g, b, a}` color as used by `colorutils.js`. -/
structure RGBA (F : Type) where
  r : F
  g : F
  b : F
  a : F
  deriving DecidableEq, Repr

/-- `hsv2rgb(h, s, v)` from `fractals.js`: HSV in `0..1` to RGB in
`0..255`.  `v` is scaled by 255 before the `s === 0` grayscale
return.  The switch discriminant is `i %= 6` (JavaScript truncated
remainder); values other than `0..5` fall to the default case. -/
def hsv2rgb {F : Type} [LinearOrderedField F] [FloorRing F]
    (h s v : F) : RGB :=
  let v' : ℤ := jsParseInt (v * 255)
  if s = 0 then ⟨v', v', v'⟩
  else
    let i : ℤ := jsParseInt (h * 6)
    let f : F := h * 6 - (i : F)
    let p : ℤ := jsParseInt ((v' : F) * (1 - s))
    let q : ℤ := jsParseInt ((v' : F) * (1 - s * f))
    let t : ℤ := jsParseInt ((v' : F) * (1 - s * (1 - f)))
    let k := Int.tmod i 6
    if k = 0 then ⟨v', t, p⟩
    else if k = 1 then ⟨q, v', p⟩
    else if k = 2 then ⟨p, v', t⟩
    else if k = 3 then ⟨p, q, v'⟩
    else if k = 4 then ⟨t, p, v'⟩
    else if k = 5 then ⟨v', p, q⟩
    else ⟨v', v', v'⟩

/-- `hsv2rgb(h, s, v)` from `colorutils.js` (both copies are
identical).  It differs from the `fractals.js` version in that the
initial color object `col = {r: v, g: v, b: v, a: 255}` is built from
`v` BEFORE `v = parseInt(v * 255)`, and that `col` is what the
`s === 0` branch returns. -/
def hsv2rgbLib {F : Type} [LinearOrderedField F] [FloorRing F]
    (h s v : F) : RGBA F :=
  let col0 : RGBA F := ⟨v, v, v, 255⟩
  let v' : ℤ := jsParseInt (v * 255)
  if s = 0 then col0
  else
    let i : ℤ := jsParseInt (h * 6)
    let f : F := h * 6 - (i : F)
    let p : ℤ := jsParseInt ((v' : F) * (1 - s))
    let q : ℤ := jsParseInt ((v' : F) * (1 - s * f))
    let t : ℤ := jsParseInt ((v' : F) * (1 - s * (1 - f)))
    let k := Int.tmod i 6
    if k = 0 then ⟨(v' : F), (t : F), (p : F), 255⟩
    else if k = 1 then ⟨(q : F), (v' : F), (p : F), 255⟩
    else if k = 2 then ⟨(p : F), (v' : F), (t : F), 255⟩
    else if k = 3 then ⟨(p : F), (q : F), (v' : F), 255⟩
    else if k = 4 then ⟨(t : F), (p : F), (v' : F), 255⟩
    else if k = 5 then ⟨(v' : F), (p : F), (q : F), 255⟩
    else ⟨(v' : F), (v' : F), (v' : F), 255⟩

/-- `interpolate(col1, col2, ni)` from `colorutils.js`: linear blend by
the fractional part `f = ni % 1`. -/
def interpolate {F : Type} [LinearOrderedField F] [FloorRing F]
    (col1 col2 : RGBA F) (ni : F) : RGBA F :=
  let f := jsRemOne ni
  ⟨(col2.r - col1.r) * f + col1.r,
   (col2.g - col1.g) * f + col1.g,
   (col2.b - col1.b) * f + col1.b, 255⟩

/-- A JavaScript exception kind. -/
inductive JsError where
  | typeError
  | referenceError
  deriving DecidableEq, Repr

/-- The JavaScript index expression `x % len` for an array of length
`len`: `none` when `len = 0` (`x % 0` is `NaN`). -/
def jsModIndex (a : ℤ) (len : ℕ) : Option ℤ :=
  if len = 0 then none else some (Int.tmod a (len : ℤ))

/-- JavaScript array access `l[e]`: defined only for an integer index
in range; everything else (negative, out of range, `NaN`) is
`undefined`, modelled as `none`. -/
def listAt {α : Type} (l : List α) : Option ℤ → Option α
  | none => none
  | some e => if e < 0 then none else l.get? e.toNat

/-- The `try` block of `getColormap(ni, colmap, shift, interp)` from
`colorutils.js` (identical in both copies):
`sh = Math.ceil(shift * colmap.length / 100)`, index
`(Math.floor(ni) + sh) % colmap.length`; when the access yields
`undefined` (non-finite `ni`, empty colormap, or a negative index), the
subscript `col[0]` throws a TypeError.  With `interp` set, the next
cyclic entry is fetched and blended by `interpolate` at `ni`. -/
def getColormapTry {F : Type} [LinearOrderedField F] [FloorRing F]
    (ni : Option F) (colmap : List (F × F × F)) (shift : F)
    (interp : Bool) : Except JsError (RGBA F) :=
  let len := colmap.length
  let sh : ℤ := ⌈shift * (len : F) / 100⌉
  match ni with
  | none => .error .typeError
  | some v =>
    match listAt colmap (jsModIndex (⌊v⌋ + sh) len) with
    | none => .error .typeError
    | some c1 =>
      let col1 : RGBA F := ⟨c1.1, c1.2.1, c1.2.2, 255⟩
      if interp then
        match listAt colmap (jsModIndex (⌊v⌋ + sh + 1) len) with
        | none => .error .typeError
        | some c2 => .ok (interpolate col1 ⟨c2.1, c2.2.1, c2.2.2, 255⟩ v)
      else .ok col1

/-- `getColormap(ni, colmap, shift, interp)` from `colorutils.js`,
`try`/`catch` included.  The `catch` block executes
`console.log("getColormap error:", ni, sh, ni + sh, scalars.i, scalars.za)`
— but `scalars` is not in scope there (it is a local of other
functions), so evaluating the log's arguments itself throws a
ReferenceError, which propagates to the caller; the subsequent
`return {r: 255, g: 255, b: 255, a: 255}` is unreachable. -/
def getColormap {F : Type} [LinearOrderedField F] [FloorRing F]
    (ni : Option F) (colmap : List (F × F × F)) (shift : F)
    (interp : Bool) : Except JsError (RGBA F) :=
  match getColormapTry ni colmap shift interp with
  | .ok c => .ok c
  | .error _ => .error .referenceError

/-- An `escaped` outcome of the loop body carries a squared magnitude
that exceeded the (squared) bailout radius. -/
theorem fractalBody_escaped_gt {F : Type} [LinearOrderedField F]
    (tr : TrigOps F) (cre cim radius : F) (n variant : ℕ)
    (zre zim lastre lastim : F) (per : ℕ) (za' : F)
    (h : fractalBody tr cre cim radius n variant zre zim lastre lastim per
      = .escaped za') :
    za' > radius := by
  simp only [fractalBody] at h
  split_ifs at h <;> simp_all

/-- Invariant of the iteration loop: starting at index `i` with `fuel`
iterations left (`i + fuel = maxiter`), the returned count is at most
`maxiter`, and a count strictly below `maxiter` comes with a squared
magnitude above the radius. -/
theorem fractalLoop_bounds {F : Type} [LinearOrderedField F]
    (tr : TrigOps F) (cre cim radius : F) (n maxiter variant : ℕ) :
    ∀ (fuel i : ℕ) (zre zim lastre lastim : F) (per : ℕ) (za : F),
      i + fuel = maxiter →
      (fractalLoop tr cre cim radius n maxiter variant
          fuel i zre zim lastre lastim per za).i ≤ maxiter ∧
      ((fractalLoop tr cre cim radius n maxiter variant
          fuel i zre zim lastre lastim per za).i < maxiter →
        (fractalLoop tr cre cim radius n maxiter variant
          fuel i zre zim lastre lastim per za).za > radius) := by
  intro fuel
  induction fuel with
  | zero =>
    intro i zre zim lastre lastim per za hi
    simp only [fractalLoop]
    exact ⟨by omega, fun hlt => absurd hlt (by omega)⟩
  | succ fuel ih =>
    intro i zre zim lastre lastim per za hi
    cases hb : fractalBody tr cre cim radius n variant zre zim lastre lastim per with
    | escaped za' =>
      simp only [fractalLoop, hb]
      exact ⟨by omega, fun _ =>
        fractalBody_escaped_gt tr cre cim radius n variant
          zre zim lastre lastim per za' hb⟩
    | periodic za' =>
      simp only [fractalLoop, hb]
      exact ⟨le_refl _, fun hlt => absurd hlt (lt_irrefl _)⟩
    | next zre' zim' lastre' lastim' per' za' =>
      simp only [fractalLoop, hb]
      exact ih (i + 1) zre' zim' lastre' lastim' per' za' (by omega)

/-- C1: for every valid input (positive `maxiter`, positive squared
bailout radius, any mode, variant and exponent ≥ 2), `fractal` returns
(totally, as a Lean function) an iteration count `i ≤ maxiter` together
with the squared magnitude at the bailout test; `i < maxiter` means the
point escaped early, i.e. the recorded squared magnitude exceeds the
radius, and `i = maxiter` means it did not escape. -/
theorem fractal_count_bounds {F : Type} [LinearOrderedField F]
    (tr : TrigOps F) (c cj : ComplexF F) (n maxiter : ℕ) (radius : F)
    (mode variant : ℕ)
    (_hmax : 1 ≤ maxiter) (_hrad : 0 < radius) (_hn : 2 ≤ n) :
    (fractal tr c cj n maxiter radius mode variant).i ≤ maxiter ∧
    ((fractal tr c cj n maxiter radius mode variant).i < maxiter →
      (fractal tr c cj n maxiter radius mode variant).za > radius) := by
  unfold fractal
  split_ifs with hm
  · exact fractalLoop_bounds tr cj.re cj.im radius n maxiter variant
      maxiter 0 c.re c.im 0 0 0 0 (by omega)
  · exact fractalLoop_bounds tr c.re c.im radius n maxiter variant
      maxiter 0 0 0 0 0 0 0 (by omega)

/-- C1 witness: the bounds instantiated at a concrete input over `ℚ`. -/
theorem fractal_count_bounds_witness :
    1 ≤ 2 ∧ (0 : ℚ) < 1 ∧ 2 ≤ 2 ∧
    ((fractal (trigZero ℚ) ⟨0, 0⟩ ⟨0, 0⟩ 2 2 1 MANDELBROT STANDARD).i ≤ 2 ∧
      ((fractal (trigZero ℚ) ⟨0, 0⟩ ⟨0, 0⟩ 2 2 1 MANDELBROT STANDARD).i < 2 →
        (fractal (trigZero ℚ) ⟨0, 0⟩ ⟨0, 0⟩ 2 2 1 MANDELBROT STANDARD).za > 1)) :=
  ⟨by decide, by decide, by decide,
    fractal_count_bounds (trigZero ℚ) ⟨0, 0⟩ ⟨0, 0⟩ 2 2 1 MANDELBROT STANDARD
      (by decide) (by decide) (by decide)⟩

/-- C4: at the plane point `0 + 0i` with exponent 2, Standard variant,
Mandelbrot mode and any positive (squared) bailout radius, `fractal`
returns iteration count `maxiter` for every `maxiter ≥ 1` (in fact the
periodicity check fires in the very first iteration). -/
theorem fractal_origin_maxiter {F : Type} [LinearOrderedField F]
    (tr : TrigOps F) (cj : ComplexF F) (maxiter : ℕ) (radius : F)
    (hmax : 1 ≤ maxiter) (hrad : 0 < radius) :
    (fractal tr ⟨0, 0⟩ cj 2 maxiter radius MANDELBROT STANDARD).i = maxiter := by
  obtain ⟨m, rfl⟩ : ∃ m, maxiter = m + 1 := ⟨maxiter - 1, by omega⟩
  have hnl : ¬(radius < 0) := not_lt.mpr hrad.le
  simp [fractal, fractalLoop, fractalBody, algStep, MANDELBROT, JULIA,
    STANDARD, BURNING_SHIP, TRICORN, hnl]

/-- C4 witness: the statement instantiated at a concrete input over `ℚ`. -/
theorem fractal_origin_maxiter_witness :
    1 ≤ 3 ∧ (0 : ℚ) < 1 ∧
    (fractal (trigZero ℚ) ⟨0, 0⟩ ⟨7, 8⟩ 2 3 1 MANDELBROT STANDARD).i = 3 :=
  ⟨by decide, by decide,
    fractal_origin_maxiter (trigZero ℚ) ⟨7, 8⟩ 3 1 (by decide) (by decide)⟩

/-- C5 counterexample: at the plane point `2 + 0i` (exponent 2,
Standard, Mandelbrot) with squared bailout radius `4` and `maxiter`
`10`, the returned iteration count is `2`, not `0` as claimed (in
Mandelbrot mode `z` starts at `0`, so the bailout test at iteration `0`
sees `|z|² = 0` and at iteration `1` sees `|z|² = 4 ≯ 4`; the escape
happens at the test of iteration `2` with `|z|² = 36`). -/
theorem fractal_two_count_ne_zero :
    fractal (trigZero ℚ) ⟨2, 0⟩ ⟨0, 0⟩ 2 10 4 MANDELBROT STANDARD = ⟨2, 36⟩ ∧
    (fractal (trigZero ℚ) ⟨2, 0⟩ ⟨0, 0⟩ 2 10 4 MANDELBROT STANDARD).i ≠ 0 := by
  decide

/-- C5 (amended): at the plane point `2 + 0i` (exponent 2, Standard,
Mandelbrot), for every squared bailout radius in `[4, 36)` and every
`maxiter ≥ 3`, the iterator escapes early at the fixed, reproducible
iteration count `2`, with squared magnitude `36` at the bailout test. -/
theorem fractal_two_escapes {F : Type} [LinearOrderedField F]
    (tr : TrigOps F) (cj : ComplexF F) (maxiter : ℕ) (radius : F)
    (hlo : 4 ≤ radius) (hhi : radius < 36) (hmax : 3 ≤ maxiter) :
    fractal tr ⟨2, 0⟩ cj 2 maxiter radius MANDELBROT STANDARD = ⟨2, 36⟩ := by
  obtain ⟨m, rfl⟩ : ∃ m, maxiter = m + 3 := ⟨maxiter - 3, by omega⟩
  have h0 : ¬(radius < 0) := not_lt.mpr (le_trans (by norm_num) hlo)
  have h4 : ¬(radius < 4) := not_lt.mpr hlo
  have hb0 : fractalBody tr (2 : F) 0 radius 2 STANDARD 0 0 0 0 0
      = .next 2 0 0 0 1 0 := by
    norm_num [fractalBody, algStep, STANDARD, BURNING_SHIP, TRICORN, h0]
  have hb1 : fractalBody tr (2 : F) 0 radius 2 STANDARD 2 0 0 0 1
      = .next 6 0 0 0 2 4 := by
    norm_num [fractalBody, algStep, STANDARD, BURNING_SHIP, TRICORN, h4]
  have hb2 : fractalBody tr (2 : F) 0 radius 2 STANDARD 6 0 0 0 2
      = .escaped 36 := by
    norm_num [fractalBody, algStep, STANDARD, BURNING_SHIP, TRICORN, hhi]
  have hfuel : m + 3 = ((m + 1) + 1) + 1 := rfl
  simp only [fractal, MANDELBROT, JULIA]
  norm_num
  rw [hfuel]
  simp only [fractalLoop, hb0, hb1, hb2]

/-- C5 witness: the amended statement instantiated at a concrete input
over `ℚ`. -/
theorem fractal_two_escapes_witness :
    (4 : ℚ) ≤ 4 ∧ (4 : ℚ) < 36 ∧ 3 ≤ 3 ∧
    fractal (trigZero ℚ) ⟨2, 0⟩ ⟨9, 9⟩ 2 3 4 MANDELBROT STANDARD = ⟨2, 36⟩ :=
  ⟨by decide, by decide, by decide,
    fractal_two_escapes (trigZero ℚ) ⟨9, 9⟩ 3 4 (by decide) (by decide) (by decide)⟩

/-- C3 counterexample: the "last seen" `z` is NOT sampled every 20
iterations.  Starting from a freshly-sampled state (`per = 0`, last
sample `(5, 5)`) on the constant orbit `z = 2` of the Julia parameters
`c = -2` (so that no bailout or periodicity break interferes), 20 full
passes through the loop body leave the stored sample untouched at
`(5, 5)` with `per = 20`; only the 21st pass stores a new sample
`(2, 0)` and resets `per` to `0`. -/
theorem fractal_sampling_not_every_20 :
    bodyIter (trigZero ℚ) (-2) 0 5 2 STANDARD 20 (2, 0, 5, 5, 0)
        = some (2, 0, 5, 5, 20) ∧
    bodyIter (trigZero ℚ) (-2) 0 5 2 STANDARD 21 (2, 0, 5, 5, 0)
        = some (2, 0, 2, 0, 0) := by
  decide

/-- C3 (amended): the loop body samples the "last seen" `z` on every
21st iteration since the previous sample — exactly when the
per-iteration counter `per + 1` exceeds 20 it stores the freshly
updated `z` and resets the counter, otherwise it keeps the previous
sample and increments the counter; and whenever the freshly updated `z`
exactly equals the stored sample, the loop terminates immediately with
iteration count forced to `maxiter` (treated as "did not escape"). -/
theorem fractal_periodicity_check {F : Type} [LinearOrderedField F]
    (tr : TrigOps F) (cre cim radius : F) (n variant : ℕ) :
    (∀ (zre zim lastre lastim : F) (per : ℕ)
        (zre' zim' lastre' lastim' : F) (per' : ℕ) (za' : F),
      fractalBody tr cre cim radius n variant zre zim lastre lastim per
          = .next zre' zim' lastre' lastim' per' za' →
      if per + 1 > 20 then lastre' = zre' ∧ lastim' = zim' ∧ per' = 0
      else lastre' = lastre ∧ lastim' = lastim ∧ per' = per + 1) ∧
    (∀ (maxiter fuel i : ℕ) (zre zim lastre lastim : F) (per : ℕ) (za za' : F),
      fractalBody tr cre cim radius n variant zre zim lastre lastim per
          = .periodic za' →
      fractalLoop tr cre cim radius n maxiter variant
          (fuel + 1) i zre zim lastre lastim per za = ⟨maxiter, za'⟩) := by
  constructor
  · intro zre zim lastre lastim per zre' zim' lastre' lastim' per' za' h
    simp only [fractalBody] at h
    split_ifs at h <;>
      (simp only [BodyOut.next.injEq] at h
       obtain ⟨rfl, rfl, rfl, rfl, rfl, rfl⟩ := h
       split_ifs <;> simp_all)
  · intro maxiter fuel i zre zim lastre lastim per za za' h
    simp only [fractalLoop, h]

/-- C3 witness: both parts of the periodicity-check statement
instantiated at concrete inputs over `ℚ` — a pass with `per = 20`
(which samples), and a pass whose updated `z` hits the stored sample
(which returns `maxiter`). -/
theorem fractal_periodicity_check_witness :
    (if 20 + 1 > 20 then (1 : ℚ) = 1 ∧ (0 : ℚ) = 0 ∧ (0 : ℕ) = 0
      else (1 : ℚ) = 5 ∧ (0 : ℚ) = 5 ∧ (0 : ℕ) = 20 + 1) ∧
    fractalLoop (trigZero ℚ) 0 0 10 2 7 STANDARD (4 + 1) 3 0 0 0 0 0 0 = ⟨7, 0⟩ :=
  ⟨(fractal_periodicity_check (trigZero ℚ) 0 0 10 2 STANDARD).1
      1 0 5 5 20 1 0 1 0 0 1 (by decide),
   (fractal_periodicity_check (trigZero ℚ) 0 0 10 2 STANDARD).2
      7 4 3 0 0 0 0 0 0 0 (by decide)⟩

/-- C10: `fractal` never mutates its complex-point arguments: in the
heap-passing transcription, the `re`/`im` fields of the plane point and
of the Julia constant are unchanged after the call, and the result is
computed purely from the field values read at entry (which the source
copies into the locals `cre`, `cim`, `zre`, `zim`). -/
theorem fractal_no_mutation {F P : Type} [LinearOrderedField F]
    (tr : TrigOps F) (h : P → ComplexF F) (pc pcj : P)
    (n maxiter : ℕ) (radius : F) (mode variant : ℕ) :
    ((fractalHeap tr h pc pcj n maxiter radius mode variant).2 pc).re = (h pc).re ∧
    ((fractalHeap tr h pc pcj n maxiter radius mode variant).2 pc).im = (h pc).im ∧
    ((fractalHeap tr h pc pcj n maxiter radius mode variant).2 pcj).re = (h pcj).re ∧
    ((fractalHeap tr h pc pcj n maxiter radius mode variant).2 pcj).im = (h pcj).im ∧
    (fractalHeap tr h pc pcj n maxiter radius mode variant).1
      = fractal tr (h pc) (h pcj) n maxiter radius mode variant :=
  ⟨rfl, rfl, rfl, rfl, rfl⟩

/-- C2 counterexample: `normalize` computes `lzn = Math.log(za) * 2`,
i.e. `2·ln(za)` — NOT `2·ln(√za) = ln(za)` as the claim states.  At
`i = 3`, `za = e`, `radius = e`, `exponent = 2` the code returns
`3 + 1 - ln(2·1 / 1)/ln 2 = 3`, while the claimed formula gives
`3 + 1 - ln(1 / 1)/ln 2 = 4`. -/
theorem normalize_claim_false :
    normalize ⟨3, Real.exp 1⟩ (Real.exp 1) 2
      ≠ ((3 : ℕ) : ℝ) + 1
        - Real.log (Real.log (Real.exp 1) / Real.log (Real.exp 1)) / Real.log 2 := by
  have hl2 : Real.log 2 ≠ 0 := ne_of_gt (Real.log_pos (by norm_num))
  simp only [normalize, Real.log_exp]
  norm_num [div_self hl2]

/-- C2 (amended): for an escaped result with nonnegative squared
magnitude `za`, `normalize` returns exactly `i + 1 - nu` where
`lzn = 2·ln(za)` (equivalently `4·ln(√za)`, twice the value the claim
states) and `nu = ln(lzn / ln(radius)) / ln(exponent)`. -/
theorem normalize_formula (s : Scalars ℝ) (radius exponent : ℝ)
    (hza : 0 ≤ s.za) :
    normalize s radius exponent
      = (s.i : ℝ) + 1
        - Real.log (Real.log (Real.sqrt s.za) * 4 / Real.log radius)
            / Real.log exponent := by
  simp only [normalize, Real.log_sqrt hza]
  ring_nf

/-- C2 witness: the amended formula instantiated at a concrete input. -/
theorem normalize_formula_witness :
    (0 : ℝ) ≤ (1 : ℝ) ∧
    normalize ⟨3, 1⟩ 2 2
      = ((3 : ℕ) : ℝ) + 1
        - Real.log (Real.log (Real.sqrt 1) * 4 / Real.log 2) / Real.log 2 :=
  ⟨by norm_num, normalize_formula ⟨3, 1⟩ 2 2 (by norm_num)⟩

/-- Squared-modulus times cosine of the doubled angle gives the real
part of the algebraic square. -/
theorem polar_square_re (zre zim : ℝ) :
    (zre * zre + zim * zim) * Real.cos (2 * atan2R zim zre)
      = zre * zre - zim * zim := by
  by_cases hz : (⟨zre, zim⟩ : ℂ) = 0
  · obtain ⟨h1, h2⟩ := Complex.ext_iff.mp hz
    simp only [Complex.zero_re, Complex.zero_im] at h1 h2
    subst h1; subst h2
    norm_num
  · have habs : Complex.abs ⟨zre, zim⟩ ≠ 0 := Complex.abs.ne_zero hz
    have hS : zre * zre + zim * zim = Complex.abs ⟨zre, zim⟩ ^ 2 := by
      rw [Complex.sq_abs, Complex.normSq_mk]
    rw [atan2R, Real.cos_two_mul', Complex.cos_arg hz, Complex.sin_arg, hS]
    field_simp
    ring

/-- Squared-modulus times sine of the doubled angle gives the imaginary
part of the algebraic square. -/
theorem polar_square_im (zre zim : ℝ) :
    (zre * zre + zim * zim) * Real.sin (2 * atan2R zim zre)
      = 2 * zre * zim := by
  by_cases hz : (⟨zre, zim⟩ : ℂ) = 0
  · obtain ⟨h1, h2⟩ := Complex.ext_iff.mp hz
    simp only [Complex.zero_re, Complex.zero_im] at h1 h2
    subst h1; subst h2
    norm_num
  · have habs : Complex.abs ⟨zre, zim⟩ ≠ 0 := Complex.abs.ne_zero hz
    have hS : zre * zre + zim * zim = Complex.abs ⟨zre, zim⟩ ^ 2 := by
      rw [Complex.sq_abs, Complex.normSq_mk]
    rw [atan2R, Real.sin_two_mul, Complex.cos_arg hz, Complex.sin_arg, hS]
    field_simp
    ring

/-- C9: for exponent `n = 2` the direct algebraic update (the `n == 2`
branch of `fractal`) and the polar-form path coincide exactly for every
complex `z` and `c` over `ℝ`: first for the `n > 2` branch of `fractal`
(`powi`/`Math.sqrt`/`Math.atan2`/`Math.cos`/`Math.sin`, then adding
`c`), and second for the polar branch of `Complex.prototype.pow`
(`cart(Math.pow(pol.r, n), n·pol.θ)`), which at `n = 2` equals the
algebraic `sqr`. -/
theorem polar_matches_algebraic (zre zim cre cim : ℝ) :
    polarStep realTrig 2 zre zim cre cim = algStep zre zim cre cim ∧
    cart ((cpolar ⟨zre, zim⟩).1 ^ 2) ((2 : ℝ) * (cpolar ⟨zre, zim⟩).2)
      = csqr ⟨zre, zim⟩ := by
  have hS : (0 : ℝ) ≤ zre * zre + zim * zim :=
    add_nonneg (mul_self_nonneg zre) (mul_self_nonneg zim)
  have hpow : Real.sqrt (zre * zre + zim * zim) ^ 2 = zre * zre + zim * zim :=
    Real.sq_sqrt hS
  constructor
  · simp only [polarStep, realTrig, powi_eq_pow, hpow, algStep, Nat.cast_ofNat]
    rw [polar_square_re, polar_square_im]
  · simp only [cart, cpolar, cabs, cabs2, realTrig, hpow]
    rw [polar_square_re, polar_square_im, csqr]
    exact congrArg (ComplexF.mk _) (by ring)

/-- C8: the `fractals.js` HSV→RGB conversion returns pure white at
`(h=0, s=0, v=1)` and pure red at `(h=0, s=1, v=1)` as claimed — but
the `colorutils.js` version (both copies) builds its grayscale return
object from `v` BEFORE scaling by 255, so at `(0, 0, 1)` it returns
`{r:1, g:1, b:1}` instead of white. -/
theorem hsv2rgb_white_red_lib_bug :
    hsv2rgb (0 : ℚ) 0 1 = ⟨255, 255, 255⟩ ∧
    hsv2rgb (0 : ℚ) 1 1 = ⟨255, 0, 0⟩ ∧
    hsv2rgbLib (0 : ℚ) 0 1 = ⟨1, 1, 1, 255⟩ ∧
    hsv2rgbLib (0 : ℚ) 0 1 ≠ ⟨255, 255, 255, 255⟩ := by
  refine ⟨by decide, by decide, by decide, ?_⟩
  intro h
  have h3 : hsv2rgbLib (0 : ℚ) 0 1 = ⟨1, 1, 1, 255⟩ := by decide
  rw [h3] at h
  have := congrArg RGBA.r h
  norm_num at this

/-- C6: on a malformed (non-finite) normalized value the `getColormap`
lookup does NOT return the white sentinel: the `try` block throws a
TypeError (`colmap[NaN]` is `undefined`, so `col[0]` faults), and the
`catch` block itself throws a ReferenceError while evaluating the
arguments of its `console.log` (the identifier `scalars` is not in
scope), which propagates to the caller; nothing is logged and the
white fallback is unreachable. -/
theorem getColormap_nan_faults :
    getColormap (none : Option ℚ) [(66, 30, 15), (25, 7, 26)] 0 false
      = .error .referenceError ∧
    getColormap (none : Option ℚ) [(66, 30, 15), (25, 7, 26)] 0 false
      ≠ .ok ⟨255, 255, 255, 255⟩ := by
  refine ⟨rfl, ?_⟩
  intro h
  exact Except.noConfusion
    ((rfl :
      getColormap (none : Option ℚ) [(66, 30, 15), (25, 7, 26)] 0 false
        = .error .referenceError).symm.trans h)

/-- The JavaScript cyclic index is unchanged by adding the array length
when the base index is nonnegative. -/
theorem jsModIndex_add_len (a : ℤ) (len : ℕ) (ha : 0 ≤ a) :
    jsModIndex (a + len) len = jsModIndex a len := by
  unfold jsModIndex
  by_cases h : len = 0
  · simp [h]
  · rw [if_neg h, if_neg h]
    congr 1
    rw [Int.tmod_eq_emod (by omega) (by omega), Int.tmod_eq_emod ha (by omega)]
    simpa using Int.add_mul_emod_self_left (a := a) (b := (len : ℤ)) (c := 1)

/-- The fractional part used by `interpolate` is unchanged by adding a
natural number to a nonnegative value. -/
theorem jsRemOne_add_nat {F : Type} [LinearOrderedField F] [FloorRing F]
    (v : F) (n : ℕ) (hv : 0 ≤ v) : jsRemOne (v + n) = jsRemOne v := by
  unfold jsRemOne jsTrunc
  rw [if_neg (not_lt.mpr (by positivity)), if_neg (not_lt.mpr hv),
    Int.floor_add_nat]
  push_cast
  ring

/-- `interpolate` is unchanged by adding a natural number to a
nonnegative normalized value. -/
theorem interpolate_add_nat {F : Type} [LinearOrderedField F] [FloorRing F]
    (c1 c2 : RGBA F) (v : F) (n : ℕ) (hv : 0 ≤ v) :
    interpolate c1 c2 (v + n) = interpolate c1 c2 v := by
  unfold interpolate
  rw [jsRemOne_add_nat v n hv]

/-- C7 (amended): gradient lookup is cyclic with period the gradient
length for nonnegative normalized values and nonnegative shift
percentages — the index being
`(floor(v) + ceil(shift·len/100)) tmod len` — but not for negative
values, where the JavaScript truncated `%` breaks the periodicity. -/
theorem getColormap_cyclic {F : Type} [LinearOrderedField F] [FloorRing F]
    (v shift : F) (colmap : List (F × F × F)) (interp : Bool)
    (hv : 0 ≤ v) (hs : 0 ≤ shift) :
    getColormap (some (v + (colmap.length : F))) colmap shift interp
      = getColormap (some v) colmap shift interp := by
  have hsh : (0 : ℤ) ≤ ⌈shift * (colmap.length : F) / 100⌉ :=
    Int.ceil_nonneg (div_nonneg (mul_nonneg hs (by positivity)) (by norm_num))
  have hfl : (0 : ℤ) ≤ ⌊v⌋ := Int.floor_nonneg.mpr hv
  simp only [getColormap, getColormapTry, Int.floor_add_nat]
  rw [show ⌊v⌋ + (colmap.length : ℤ) + ⌈shift * (colmap.length : F) / 100⌉
      = ⌊v⌋ + ⌈shift * (colmap.length : F) / 100⌉ + (colmap.length : ℤ) by ring,
    jsModIndex_add_len _ _ (by omega)]
  rw [show ⌊v⌋ + ⌈shift * (colmap.length : F) / 100⌉ + (colmap.length : ℤ) + 1
      = ⌊v⌋ + ⌈shift * (colmap.length : F) / 100⌉ + 1 + (colmap.length : ℤ) by ring,
    jsModIndex_add_len _ _ (by omega)]
  cases listAt colmap
      (jsModIndex (⌊v⌋ + ⌈shift * (colmap.length : F) / 100⌉) colmap.length) with
  | none => rfl
  | some c1 =>
    cases interp with
    | false => rfl
    | true =>
      cases listAt colmap
          (jsModIndex (⌊v⌋ + ⌈shift * (colmap.length : F) / 100⌉ + 1)
            colmap.length) with
      | none => rfl
      | some c2 => simp only [interpolate_add_nat _ _ v colmap.length hv]

/-- C7 witness: the amended cyclicity instantiated at a concrete input
over `ℚ`. -/
theorem getColormap_cyclic_witness :
    (0 : ℚ) ≤ 2 ∧ (0 : ℚ) ≤ 50 ∧
    getColormap (some ((2 : ℚ) + (([((0 : ℚ), (0 : ℚ), (0 : ℚ)),
        ((100 : ℚ), (100 : ℚ), (100 : ℚ))] : List (ℚ × ℚ × ℚ)).length : ℚ)))
      [((0 : ℚ), (0 : ℚ), (0 : ℚ)), ((100 : ℚ), (100 : ℚ), (100 : ℚ))] 50 true
      = getColormap (some (2 : ℚ))
          [((0 : ℚ), (0 : ℚ), (0 : ℚ)), ((100 : ℚ), (100 : ℚ), (100 : ℚ))] 50 true :=
  ⟨by norm_num, by norm_num,
    getColormap_cyclic 2 50 [(0, 0, 0), (100, 100, 100)] true
      (by norm_num) (by norm_num)⟩

/-- C7 counterexample: cyclicity fails for a negative normalized value.
With the 3-entry gradient below, `shift = 50` and interpolation on,
`lookup(-1/2)` blends with fractional part `-1/2` (JavaScript `%`
truncates toward zero) giving gray 50, while `lookup(-1/2 + 3)` blends
with fractional part `1/2` giving gray 150. -/
theorem getColormap_not_cyclic :
    getColormap (some (-1/2 : ℚ)) [(0, 0, 0), (100, 100, 100), (200, 200, 200)]
        50 true
      ≠ getColormap (some (-1/2 + 3 : ℚ))
          [(0, 0, 0), (100, 100, 100), (200, 200, 200)] 50 true := by
  have h1 : getColormap (some (-1/2 : ℚ))
      [(0, 0, 0), (100, 100, 100), (200, 200, 200)] 50 true
      = .ok ⟨50, 50, 50, 255⟩ := by rfl
  have h2 : getColormap (some (-1/2 + 3 : ℚ))
      [(0, 0, 0), (100, 100, 100), (200, 200, 200)] 50 true
      = .ok ⟨150, 150, 150, 255⟩ := by rfl
  rw [h1, h2]
  intro h
  have := congrArg (fun e => match e with
    | Except.ok c => RGBA.r c
    | Except.error _ => (0 : ℚ)) h
  norm_num at this

end FG
